import Mathlib

/-!
Verification development for the detection/scoring engine of the
Anti-India-Campaign repository.

The embedding below is a shallow translation of the Python source:
* `campaign_detector.py` — `KeywordDatabase`, `NLPProcessor.extract_features`,
  `NLPProcessor.is_anti_india_content`, `EngagementAnalyzer.analyze_engagement`
  (viral flag), `EngagementAnalyzer.identify_influencers`,
  `CoordinatedCampaignDetector` (hashtag coordination, content-similarity
  clustering, campaign threat level, Jaccard similarity).
* `engagement_analyzer.py` — `EngagementAnalyzer.detect_trending_anomalies`.
* `enhanced_keyword_database.py` — `KeywordDatabase.add_keyword`.

Modelling conventions:
* Python floats are modelled as `ℚ` (all arithmetic in the source is exact
  decimal arithmetic on small values); `0.4` is written `2/5`, `0.8` is `4/5`.
* SQLite tables are modelled as lists of rows; `datetime` values as `ℤ`
  (epoch seconds — only ordering and subtraction are used).
* External collaborators (the `re` regex engine on stored patterns, and the
  TextBlob sentiment collaborator) are parameters of the embedding: the
  scorer receives a `regexMatch` predicate (does `findall` return a
  non-empty list for this pattern on this content?) and a `sentiment`
  function.
* Python's stable `sorted(..., reverse=True)` / `ORDER BY ... DESC` are
  modelled by the stable descending insertion sort `sortDescBy`.
* Python `dict` / `defaultdict` insertion-order key iteration is modelled by
  `pyDedup` (first-occurrence deduplication);  `set(...)` materialisation
  order is unspecified in Python, `pyDedup` is the deterministic choice and
  no verified property depends on that order.
-/

namespace AIC

/-- Python's `needle in haystack` on strings: contiguous substring test. -/
def listContainsSeq (needle haystack : List Char) : Bool :=
  haystack.tails.any (fun t => needle.isPrefixOf t)

/-- `strContains h n` is Python's `n in h` for strings. -/
def strContains (haystack needle : String) : Bool :=
  listContainsSeq needle.data haystack.data

/-- Python `s.lower()`: case-fold every character (ASCII-faithful; written
over the character list so that it evaluates by structural recursion). -/
def pyLower (s : String) : String :=
  String.mk (s.data.map Char.toLower)

/-- Accumulator pass of `pyTokens`: split a character list at whitespace
runs, discarding empty fields. -/
def pyTokensAux : List Char → List Char → List String
  | [], acc => if acc = [] then [] else [String.mk acc.reverse]
  | c :: cs, acc =>
    if c.isWhitespace then
      if acc = [] then pyTokensAux cs []
      else String.mk acc.reverse :: pyTokensAux cs []
    else pyTokensAux cs (c :: acc)

/-- Python `s.split()` with no argument: the maximal whitespace-free runs
of `s`, in order, with no empty tokens. -/
def pyTokens (s : String) : List String :=
  pyTokensAux s.data []

/-- First-occurrence deduplication: Python `dict` key insertion order. -/
def pyDedupAux {α : Type} [DecidableEq α] (seen : List α) : List α → List α
  | [] => []
  | a :: l => if a ∈ seen then pyDedupAux seen l else a :: pyDedupAux (a :: seen) l

def pyDedup {α : Type} [DecidableEq α] (l : List α) : List α :=
  pyDedupAux [] l

/-- Stable descending insertion: `x` is placed before the first element whose
key is `≤` its own, so earlier input elements win ties (Python stable sort). -/
def insertDescBy {α : Type} (key : α → ℚ) (x : α) : List α → List α
  | [] => [x]
  | y :: ys => if key y ≤ key x then x :: y :: ys else y :: insertDescBy key x ys

/-- Stable descending sort by a rational key: Python's
`sorted(..., key=..., reverse=True)` and SQL `ORDER BY ... DESC`. -/
def sortDescBy {α : Type} (key : α → ℚ) (l : List α) : List α :=
  l.foldr (insertDescBy key) []

/-! ## KeywordDatabase (campaign_detector.py) -/

/-- A row of the `keywords` table (id/timestamps omitted: never read). -/
structure KwRow where
  keyword : String
  category : String
  severity : ℚ
  detection_count : ℕ
  is_active : Bool
deriving DecidableEq

/-- A row of the `hashtags` table (this table has no `is_active` filter in
`get_hashtags`). -/
structure HtRow where
  hashtag : String
  category : String
  severity : ℚ
  detection_count : ℕ
deriving DecidableEq

/-- A row of the `phrase_patterns` table. -/
structure PatRow where
  pattern : String
  description : String
  severity : ℚ
  detection_count : ℕ
deriving DecidableEq

/-- The keyword database state (the three rule tables). -/
structure KeywordDatabase where
  keywords : List KwRow
  hashtags : List HtRow
  patterns : List PatRow
deriving DecidableEq

/-- `get_active_keywords`: rows with `is_active = 1`, `ORDER BY severity DESC`,
projected to `(keyword, category, severity)` tuples. -/
def get_active_keywords (db : KeywordDatabase) : List (String × String × ℚ) :=
  (sortDescBy (fun r => r.severity) (db.keywords.filter (fun r => r.is_active))).map
    (fun r => (r.keyword, r.category, r.severity))

/-- `get_hashtags`: all rows, `ORDER BY severity DESC`. -/
def get_hashtags (db : KeywordDatabase) : List (String × String × ℚ) :=
  (sortDescBy (fun r => r.severity) db.hashtags).map
    (fun r => (r.hashtag, r.category, r.severity))

/-- `get_patterns`: all rows, `ORDER BY severity DESC`, projected to
`(pattern, description, severity)`. -/
def get_patterns (db : KeywordDatabase) : List (String × String × ℚ) :=
  (sortDescBy (fun r => r.severity) db.patterns).map
    (fun r => (r.pattern, r.description, r.severity))

/-- `update_detection_count`: bump `detection_count` of every row of the
selected table whose stored text equals the lower-cased argument
(`WHERE keyword = ?` with the lower-cased parameter).  `keyword_type`
selects the `keywords` table exactly when it is the string `"keyword"`,
otherwise the `hashtags` table. -/
def update_detection_count (db : KeywordDatabase) (text : String)
    (keyword_type : String) : KeywordDatabase :=
  if keyword_type = "keyword" then
    { db with keywords := db.keywords.map (fun r =>
        if r.keyword = pyLower text then
          { r with detection_count := r.detection_count + 1 } else r) }
  else
    { db with hashtags := db.hashtags.map (fun r =>
        if r.hashtag = pyLower text then
          { r with detection_count := r.detection_count + 1 } else r) }

/-! ## NLPProcessor (campaign_detector.py) -/

/-- The `NLPProcessor` rule snapshot built by `load_nlp_resources`. -/
structure NLPProcessor where
  keywords : List (String × String × ℚ)
  hashtags : List (String × String × ℚ)
  patterns : List (String × String × ℚ)

/-- `load_nlp_resources`: snapshot the three rule lists.  (Regex compilation
is deferred to the external `regexMatch` collaborator parameter.) -/
def load_nlp_resources (db : KeywordDatabase) : NLPProcessor :=
  { keywords := get_active_keywords db
    hashtags := get_hashtags db
    patterns := get_patterns db }

/-- One entry of `features['matched_keywords']` / `['matched_hashtags']`. -/
structure MatchedRule where
  text : String
  category : String
  severity : ℚ
deriving DecidableEq

/-- One entry of `features['matched_patterns']` (the description plus
severity; the concrete `findall` match list is external presentation). -/
structure MatchedPattern where
  description : String
  severity : ℚ
deriving DecidableEq

/-- The feature record produced by `extract_features`.  The
`hashtags_found` / `mentions_found` / `urls_found` fields of the source are
presentation-only token extractions (`re.findall` of `#\w+` etc.) consumed
by no verified component and are omitted. -/
structure Features where
  matched_keywords : List MatchedRule
  matched_hashtags : List MatchedRule
  matched_patterns : List MatchedPattern
  sentiment_score : ℚ
  threat_level : String
  total_severity : ℚ
deriving DecidableEq

/-- The threat-level step function at the end of `extract_features`. -/
def threatLevelOf (s : ℚ) : String :=
  if s ≥ 25 then "CRITICAL"
  else if s ≥ 15 then "HIGH"
  else if s ≥ 8 then "MEDIUM"
  else "LOW"

/-- The keyword-matching loop of `extract_features`: for each snapshot tuple,
if `keyword.lower() in content_lower` then append the match, add its
severity, and bump its detection count in the database. -/
def keywordPass (db : KeywordDatabase) (snapshot : List (String × String × ℚ))
    (contentLower : String) : List MatchedRule × ℚ × KeywordDatabase :=
  snapshot.foldl
    (fun acc kcs =>
      if strContains contentLower (pyLower kcs.1) then
        (acc.1 ++ [⟨kcs.1, kcs.2.1, kcs.2.2⟩], acc.2.1 + kcs.2.2,
         update_detection_count acc.2.2 kcs.1 "keyword")
      else acc)
    ([], 0, db)

/-- The hashtag-matching loop of `extract_features` (identical shape, updates
the `hashtags` table). -/
def hashtagPass (db : KeywordDatabase) (snapshot : List (String × String × ℚ))
    (contentLower : String) : List MatchedRule × ℚ × KeywordDatabase :=
  snapshot.foldl
    (fun acc kcs =>
      if strContains contentLower (pyLower kcs.1) then
        (acc.1 ++ [⟨kcs.1, kcs.2.1, kcs.2.2⟩], acc.2.1 + kcs.2.2,
         update_detection_count acc.2.2 kcs.1 "hashtag")
      else acc)
    ([], 0, db)

/-- The pattern loop of `extract_features`: each pattern whose compiled
regex `findall` on the raw content is non-empty (the external `regexMatch`
collaborator) contributes its severity once.  No detection count is
touched. -/
def patternPass (regexMatch : String → String → Bool)
    (snapshot : List (String × String × ℚ)) (content : String) :
    List MatchedPattern × ℚ :=
  snapshot.foldl
    (fun acc pds =>
      if regexMatch pds.1 content then
        (acc.1 ++ [⟨pds.2.1, pds.2.2⟩], acc.2 + pds.2.2)
      else acc)
    ([], 0)

/-- `NLPProcessor.extract_features`: scores one text against the snapshot,
returning the feature record and the updated database state.  `sentiment`
is the TextBlob polarity collaborator (its try/except fail-soft default is
the collaborator's concern; the scorer stores whatever value it yields). -/
def extract_features (proc : NLPProcessor) (db : KeywordDatabase)
    (regexMatch : String → String → Bool) (sentiment : String → ℚ)
    (content : String) : Features × KeywordDatabase :=
  let contentLower := pyLower content
  let kw := keywordPass db proc.keywords contentLower
  let ht := hashtagPass kw.2.2 proc.hashtags contentLower
  let pt := patternPass regexMatch proc.patterns content
  let total := kw.2.1 + ht.2.1 + pt.2
  ({ matched_keywords := kw.1
     matched_hashtags := ht.1
     matched_patterns := pt.1
     sentiment_score := sentiment content
     threat_level := threatLevelOf total
     total_severity := total }, ht.2.2)

/-- `NLPProcessor.is_anti_india_content`: the relevance gate. -/
def is_anti_india_content (proc : NLPProcessor) (db : KeywordDatabase)
    (regexMatch : String → String → Bool) (sentiment : String → ℚ)
    (content : String) : (Bool × Features) × KeywordDatabase :=
  let r := extract_features proc db regexMatch sentiment content
  let f := r.1
  ((decide (0 < f.matched_keywords.length) ||
    decide (0 < f.matched_hashtags.length) ||
    decide (0 < f.matched_patterns.length) ||
    (decide (f.sentiment_score < -(3/10)) && decide (3 < f.total_severity)), f),
   r.2)

/-! ## CampaignContent and EngagementAnalyzer (campaign_detector.py) -/

/-- The `CampaignContent` dataclass.  `engagement` is the `Dict[str, int]`
of raw counters, modelled as an association list (first binding wins on
lookup, as in a dict); `timestamp` is epoch seconds. -/
structure CampaignContent where
  id : String
  platform : String
  content : String
  author : String
  timestamp : ℤ
  engagement : List (String × ℕ)
  hashtags : List String
  mentions : List String
  url : String
  sentiment_score : ℚ
  threat_level : String
  keywords_matched : List String
deriving DecidableEq, Inhabited

/-- Python `engagement.get(k, 0)`. -/
def eget (e : List (String × ℕ)) (k : String) : ℕ :=
  ((e.find? (fun kv => kv.1 = k)).map (fun kv => kv.2)).getD 0

/-- Python `sum(engagement.values())`. -/
def engagementTotal (e : List (String × ℕ)) : ℕ :=
  (e.map (fun kv => kv.2)).sum

/-- The viral check of `EngagementAnalyzer.analyze_engagement` against the
constant thresholds `viral_likes = 1000`, `viral_shares = 500`,
`viral_comments = 200` (strict comparisons).  The remaining fields of the
analysis dict (ratios, bot score, suspicion) are advisory and consumed by
no verified claim. -/
def analyze_engagement_is_viral (c : CampaignContent) : Bool :=
  decide (1000 < eget c.engagement "likes") ||
  decide (500 < eget c.engagement "shares") ||
  decide (200 < eget c.engagement "comments")

/-- Per-post threat contribution in `identify_influencers`
(`CRITICAL → +10`, `HIGH → +5`, `MEDIUM → +2`, anything else `+0`). -/
def postThreatScore (tl : String) : ℕ :=
  if tl = "CRITICAL" then 10
  else if tl = "HIGH" then 5
  else if tl = "MEDIUM" then 2
  else 0

/-- The per-author aggregate accumulated by `identify_influencers`
(`avg_engagement` and `content_samples` are presentation fields consumed by
no verified claim and are omitted). -/
structure AuthorMetrics where
  post_count : ℕ
  total_engagement : ℕ
  viral_posts : ℕ
  threat_score : ℕ
  platforms : List String
deriving DecidableEq

/-- The aggregate for one author: the source folds every content item into a
per-author dict entry; the entry's final value is the fold over exactly that
author's posts in input order. -/
def authorMetrics (contents : List CampaignContent) (a : String) : AuthorMetrics :=
  let posts := contents.filter (fun c => c.author = a)
  { post_count := posts.length
    total_engagement := (posts.map (fun c => engagementTotal c.engagement)).sum
    viral_posts := (posts.filter (fun c => analyze_engagement_is_viral c)).length
    threat_score := (posts.map (fun c => postThreatScore c.threat_level)).sum
    platforms := pyDedup (posts.map (fun c => c.platform)) }

/-- The influence formula of `identify_influencers` (`0.4` = `2/5`). -/
def influenceScore (m : AuthorMetrics) : ℚ :=
  (m.total_engagement : ℚ) * (2/5) + (m.viral_posts : ℚ) * 100 +
    (m.threat_score : ℚ) * 10 + (m.platforms.length : ℚ) * 50

/-- One entry of the influencer list. -/
structure Influencer where
  author : String
  influence_score : ℚ
  metrics : AuthorMetrics
deriving DecidableEq

/-- The influencer records in author-first-appearance order (Python dict
iteration order over `author_metrics`), before the final sort. -/
def influencerList (contents : List CampaignContent) : List Influencer :=
  (pyDedup (contents.map (fun c => c.author))).map (fun a =>
    { author := a
      influence_score := influenceScore (authorMetrics contents a)
      metrics := authorMetrics contents a })

/-- `EngagementAnalyzer.identify_influencers`: build per-author aggregates
and return them sorted by influence score descending
(`sorted(..., reverse=True)`, a stable sort). -/
def identify_influencers (contents : List CampaignContent) : List Influencer :=
  sortDescBy (fun r => r.influence_score) (influencerList contents)

/-! ## CoordinatedCampaignDetector (campaign_detector.py) -/

/-- Python `content.lower().split()` tokens (whitespace runs, no empties),
as a finite set of words. -/
def tokenSet (s : String) : Finset String :=
  (pyTokens (pyLower s)).toFinset

/-- `CoordinatedCampaignDetector._calculate_content_similarity`: Jaccard
similarity of the case-folded word sets; `0.0` when the union is empty. -/
def calculate_content_similarity (content1 content2 : String) : ℚ :=
  let words1 := tokenSet content1
  let words2 := tokenSet content2
  let intersection := (words1 ∩ words2).card
  let union := (words1 ∪ words2).card
  if 0 < union then (intersection : ℚ) / (union : ℚ) else 0

/-- `_calculate_time_span`: `max(timestamps) - min(timestamps)` (the inputs
are the non-empty member lists of a cluster; on `[]` the convention value is
`0`). -/
def calculate_time_span (contents : List CampaignContent) : ℤ :=
  let ts := contents.map (fun c => c.timestamp)
  ts.foldl max (ts.headD 0) - ts.foldl min (ts.headD 0)

/-- The `threat_scores` dict lookup `{'LOW':1,'MEDIUM':2,'HIGH':3,'CRITICAL':4}`
with `.get(..., 1)` default. -/
def threatScoreLookup (tl : String) : ℕ :=
  if tl = "LOW" then 1
  else if tl = "MEDIUM" then 2
  else if tl = "HIGH" then 3
  else if tl = "CRITICAL" then 4
  else 1

/-- `_calculate_campaign_threat_level`: average member tier, bucketed
(`3.5 = 7/2`, `2.5 = 5/2`, `1.5 = 3/2`). -/
def calculate_campaign_threat_level (contents : List CampaignContent) : String :=
  let avg : ℚ :=
    ((contents.map (fun c => (threatScoreLookup c.threat_level : ℚ))).sum) /
      (contents.length : ℚ)
  if avg ≥ 7/2 then "CRITICAL"
  else if avg ≥ 5/2 then "HIGH"
  else if avg ≥ 3/2 then "MEDIUM"
  else "LOW"

/-- One reported hashtag-coordination campaign. -/
structure HashtagCampaign where
  hashtag : String
  accounts_involved : List String
  post_count : ℕ
  time_span : ℤ
  platforms : List String
  threat_level : String
deriving DecidableEq

/-- The per-key member list of `hashtag_usage[h]`: iterating contents in
order, each item is appended once per occurrence of `h` among its
case-folded hashtags. -/
def hashtagGroup (contents : List CampaignContent) (h : String) :
    List CampaignContent :=
  contents.flatMap (fun c =>
    List.replicate ((c.hashtags.map pyLower).count h) c)

/-- The per-hashtag reporting step of `_detect_hashtag_coordination`: a
hashtag used by ≥ 5 posts from ≥ 3 distinct authors yields a campaign
record, anything else yields nothing. -/
def hashtagCampaignFor (contents : List CampaignContent) (h : String) :
    Option HashtagCampaign :=
  let grouped := hashtagGroup contents h
  if 5 ≤ grouped.length then
    let unique_authors := pyDedup (grouped.map (fun c => c.author))
    if 3 ≤ unique_authors.length then
      some { hashtag := h
             accounts_involved := unique_authors
             post_count := grouped.length
             time_span := calculate_time_span grouped
             platforms := pyDedup (grouped.map (fun c => c.platform))
             threat_level := calculate_campaign_threat_level grouped }
    else none
  else none

/-- `_detect_hashtag_coordination`: group by case-folded hashtag
(`defaultdict` insertion order = first-occurrence order of the keys), and
report each hashtag used by ≥ 5 posts from ≥ 3 distinct authors. -/
def detect_hashtag_coordination (contents : List CampaignContent) :
    List HashtagCampaign :=
  (pyDedup (contents.flatMap (fun c => c.hashtags.map pyLower))).filterMap
    (hashtagCampaignFor contents)

/-- The inner loop of `_detect_content_similarity`: starting from seed
`c1`, scan the later items; every not-yet-processed item whose similarity
to the seed exceeds `0.8` is absorbed and immediately added to `processed`.
Returns the absorbed items (with their batch indices) and the final
`processed` set. -/
def gatherSimilar (c1 : CampaignContent) :
    List (ℕ × CampaignContent) → List ℕ →
    List (ℕ × CampaignContent) × List ℕ
  | [], processed => ([], processed)
  | (j, c2) :: rest, processed =>
    if j ∈ processed then gatherSimilar c1 rest processed
    else if 4/5 < calculate_content_similarity c1.content c2.content then
      let r := gatherSimilar c1 rest (j :: processed)
      ((j, c2) :: r.1, r.2)
    else gatherSimilar c1 rest processed

/-- The reporting condition of `_detect_content_similarity`: cluster size
≥ 3 and ≥ 2 distinct authors. -/
def similarityReported (members : List (ℕ × CampaignContent)) : Bool :=
  decide (3 ≤ members.length) &&
  decide (2 ≤ (pyDedup (members.map (fun ic => ic.2.author))).length)

/-- The outer loop of `_detect_content_similarity` over the enumerated
batch: each unprocessed item seeds a group of itself plus the absorbed later
items; the group is kept with its reporting flag (the source materialises a
campaign dict only for reported groups, and additionally adds the seed index
to `processed` — at that point a dead write, since the scan never returns to
an index ≤ the seed). -/
def simGroups : List (ℕ × CampaignContent) → List ℕ →
    List (List (ℕ × CampaignContent) × Bool)
  | [], _ => []
  | (i, c1) :: rest, processed =>
    if i ∈ processed then simGroups rest processed
    else
      let r := gatherSimilar c1 rest processed
      let members := (i, c1) :: r.1
      if similarityReported members then
        (members, true) :: simGroups rest (i :: r.2)
      else
        (members, false) :: simGroups rest r.2

/-- One reported content-similarity campaign.  `member_indices` records
which batch items form the cluster (the source keeps them only in the local
`similar_contents` list; they are retained here so cluster membership is a
statable property). -/
structure SimilarityCampaign where
  similar_posts : ℕ
  accounts_involved : List String
  content_template : String
  platforms : List String
  threat_level : String
  member_indices : List ℕ
deriving DecidableEq

/-- Python `s[:200]` (by code point). -/
def strTake (n : ℕ) (s : String) : String :=
  String.mk (s.data.take n)

/-- `_detect_content_similarity`: greedy single-pass clustering at
threshold `0.8`; report groups with ≥ 3 members from ≥ 2 distinct
authors. -/
def detect_content_similarity (contents : List CampaignContent) :
    List SimilarityCampaign :=
  ((simGroups contents.enum []).filter (fun gb => gb.2)).map (fun gb =>
    { similar_posts := gb.1.length
      accounts_involved := pyDedup (gb.1.map (fun ic => ic.2.author))
      content_template := strTake 200 (((gb.1.headD (0, default)).2).content)
      platforms := pyDedup (gb.1.map (fun ic => ic.2.platform))
      threat_level := calculate_campaign_threat_level (gb.1.map (fun ic => ic.2))
      member_indices := gb.1.map (fun ic => ic.1) })

/-! ## AnomalyDetector (engagement_analyzer.py, `detect_trending_anomalies`) -/

/-- A row of the `trending_patterns` table restricted to the baseline
window (only the grouping keys and the mention count are consumed). -/
structure TrendRow where
  keyword_or_hashtag : String
  platform : String
  mention_count : ℚ
deriving DecidableEq

/-- A row of the recent (last 6 hours) query. -/
structure RecentRow where
  keyword_or_hashtag : String
  platform : String
  mention_count : ℚ
  hour_timestamp : ℤ
  engagement_sum : ℚ
  unique_users : ℕ
deriving DecidableEq

/-- The baseline observations of one `(keyword_or_hashtag, platform)` key. -/
def baselineCounts (baseline : List TrendRow) (k p : String) : List ℚ :=
  (baseline.filter (fun r => r.keyword_or_hashtag = k ∧ r.platform = p)).map
    (fun r => r.mention_count)

/-- Arithmetic mean (pandas `mean`; only evaluated on groups the detector
keeps, which have ≥ 12 observations). -/
def listMean (xs : List ℚ) : ℚ :=
  xs.sum / (xs.length : ℚ)

/-- Sample variance, pandas `std` squared (`ddof = 1`). -/
def sampleVar (xs : List ℚ) : ℚ :=
  ((xs.map (fun x => (x - listMean xs) ^ 2)).sum) / ((xs.length : ℚ) - 1)

/-- The squared z-score of a deviation `d` against variance `v`, with the
source's `std.replace(0, 1)`: `z = d / std`, `std = √v`, `std = 0`
replaced by `1`.  Kept squared so the value stays rational; every use in
the source compares `|z|` with a constant or with another `|z|`, and both
are order-isomorphic to the squared comparisons. -/
def zsq (d v : ℚ) : ℚ :=
  d ^ 2 / (if v = 0 then 1 else v)

/-- The squared z-score of one recent row against its baseline. -/
def rowZsq (baseline : List TrendRow) (r : RecentRow) : ℚ :=
  let xs := baselineCounts baseline r.keyword_or_hashtag r.platform
  zsq (r.mention_count - listMean xs) (sampleVar xs)

/-- `EngagementAnalyzer.detect_trending_anomalies`, detection core: keep the
recent rows whose key has ≥ 12 baseline observations (the
`count >= 12` filter followed by the inner merge), flag those with
`|z| > 2.0` (encoded `z² > 4`), and sort by `|z|` descending (encoded: by
`z²` descending).  The source then formats each kept row into a result dict
(adding `average_mentions`, `anomaly_strength = |z|` and its threat tier) —
a per-row projection carrying no further selection logic. -/
def detect_trending_anomalies (baseline : List TrendRow)
    (recent : List RecentRow) : List RecentRow :=
  let merged := recent.filter (fun r =>
    12 ≤ (baselineCounts baseline r.keyword_or_hashtag r.platform).length)
  let flagged := merged.filter (fun r => 4 < rowZsq baseline r)
  sortDescBy (fun r => rowZsq baseline r) flagged

/-- The threat tier attached to each reported anomaly
(`|z| > 4 → HIGH`, `|z| > 3 → MEDIUM`, else `LOW`), on the squared
strength. -/
def anomalyThreatLevel (strengthSq : ℚ) : String :=
  if 16 < strengthSq then "HIGH"
  else if 9 < strengthSq then "MEDIUM"
  else "LOW"

/-! ## add_keyword (enhanced_keyword_database.py and campaign_detector.py) -/

/-- A row of the enhanced store's `keywords` table (id/counters omitted:
never read by `add_keyword`). -/
structure EnhancedKwRow where
  keyword : String
  category : String
  weight : ℚ
  language : String
deriving DecidableEq

/-- The enhanced keyword store (`enhanced_keyword_database.py`). -/
structure EnhancedKeywordDatabase where
  keywords : List EnhancedKwRow
deriving DecidableEq

/-- `KeywordDatabase.add_keyword` of `enhanced_keyword_database.py`: a plain
`INSERT` of the lower-cased keyword under the table's UNIQUE constraint;
an `IntegrityError` on a duplicate is caught and surfaced as `False`, a
successful insert returns `True`. -/
def enhanced_add_keyword (db : EnhancedKeywordDatabase) (keyword category : String)
    (weight : ℚ) (language : String) : Bool × EnhancedKeywordDatabase :=
  if db.keywords.any (fun r => r.keyword = pyLower keyword) then
    (false, db)
  else
    (true, { keywords := db.keywords ++ [⟨pyLower keyword, category, weight, language⟩] })

/-- `KeywordDatabase.add_keyword` of `campaign_detector.py`:
`INSERT OR REPLACE` of the lower-cased keyword — a conflicting row is
deleted and the fresh row (with default `detection_count = 0`,
`is_active = 1`) is inserted.  Returns nothing. -/
def add_keyword (db : KeywordDatabase) (keyword category : String)
    (severity : ℚ) : KeywordDatabase :=
  { db with keywords :=
      db.keywords.filter (fun r => ¬ r.keyword = pyLower keyword) ++
        [⟨pyLower keyword, category, severity, 0, true⟩] }

/-! ## Theorems -/

/-- C1: for every scored text, the threat level is the deterministic step
function of the summed severity of the matched rules, with inclusive upper
cutoffs — `≥ 25 → CRITICAL`, `≥ 15 → HIGH`, `≥ 8 → MEDIUM`, else `LOW` —
checked in particular at the boundary values `7.99 / 8`, `14.99 / 15` and
`24.99 / 25`. -/
theorem C1_threat_level_step (proc : NLPProcessor) (db : KeywordDatabase)
    (regexMatch : String → String → Bool) (sentiment : String → ℚ)
    (content : String) :
    ((extract_features proc db regexMatch sentiment content).1.threat_level =
      (if 25 ≤ (extract_features proc db regexMatch sentiment content).1.total_severity
       then "CRITICAL"
       else if 15 ≤ (extract_features proc db regexMatch sentiment content).1.total_severity
       then "HIGH"
       else if 8 ≤ (extract_features proc db regexMatch sentiment content).1.total_severity
       then "MEDIUM"
       else "LOW")) ∧
    threatLevelOf (799/100) = "LOW" ∧ threatLevelOf 8 = "MEDIUM" ∧
    threatLevelOf (1499/100) = "MEDIUM" ∧ threatLevelOf 15 = "HIGH" ∧
    threatLevelOf (2499/100) = "HIGH" ∧ threatLevelOf 25 = "CRITICAL" := by
  refine ⟨rfl, ?_, ?_, ?_, ?_, ?_, ?_⟩ <;> norm_num [threatLevelOf]

/-- C6: a text is classified campaign-relevant exactly when some keyword,
hashtag or pattern matched it, or its sentiment is below `-0.3` while its
total severity exceeds `3`; hence with matches it is relevant whatever the
sentiment, and with no matches and sentiment `≥ -0.3` it never is. -/
theorem C6_relevance_gate (proc : NLPProcessor) (db : KeywordDatabase)
    (regexMatch : String → String → Bool) (sentiment : String → ℚ)
    (content : String) :
    (is_anti_india_content proc db regexMatch sentiment content).1.1 = true ↔
      ((is_anti_india_content proc db regexMatch sentiment content).1.2.matched_keywords ≠ [] ∨
       (is_anti_india_content proc db regexMatch sentiment content).1.2.matched_hashtags ≠ [] ∨
       (is_anti_india_content proc db regexMatch sentiment content).1.2.matched_patterns ≠ [] ∨
       ((is_anti_india_content proc db regexMatch sentiment content).1.2.sentiment_score < -(3/10) ∧
        3 < (is_anti_india_content proc db regexMatch sentiment content).1.2.total_severity)) := by
  have hb : (is_anti_india_content proc db regexMatch sentiment content).1.1 =
      (decide (0 < (is_anti_india_content proc db regexMatch sentiment
          content).1.2.matched_keywords.length) ||
       decide (0 < (is_anti_india_content proc db regexMatch sentiment
          content).1.2.matched_hashtags.length) ||
       decide (0 < (is_anti_india_content proc db regexMatch sentiment
          content).1.2.matched_patterns.length) ||
       (decide ((is_anti_india_content proc db regexMatch sentiment
          content).1.2.sentiment_score < -(3/10)) &&
        decide (3 < (is_anti_india_content proc db regexMatch sentiment
          content).1.2.total_severity))) := rfl
  rw [hb]
  simp [List.length_pos, or_assoc]

/-- C8: the content-similarity measure is Jaccard similarity on case-folded
whitespace-token sets: it is `0` when both token sets are empty, `1` on any
text with a non-empty token set compared with itself, and symmetric in its
two arguments. -/
theorem C8_jaccard_properties (a b : String) :
    (tokenSet a = ∅ ∧ tokenSet b = ∅ → calculate_content_similarity a b = 0) ∧
    (tokenSet a ≠ ∅ → calculate_content_similarity a a = 1) ∧
    calculate_content_similarity a b = calculate_content_similarity b a := by
  refine ⟨?_, ?_, ?_⟩
  · rintro ⟨ha, hb⟩
    simp [calculate_content_similarity, ha, hb]
  · intro ha
    have h0 : 0 < (tokenSet a).card :=
      Finset.card_pos.mpr (Finset.nonempty_iff_ne_empty.mpr ha)
    simp only [calculate_content_similarity, Finset.inter_self,
      Finset.union_self, if_pos h0]
    exact div_self (by exact_mod_cast h0.ne')
  · simp [calculate_content_similarity, Finset.inter_comm, Finset.union_comm]

/-- C8 witness: the empty-token case at two empty texts, and self-similarity
`1` at the one-token text `"a"`. -/
theorem C8_jaccard_properties_witness :
    calculate_content_similarity "" "" = 0 ∧
    calculate_content_similarity "a" "a" = 1 := by
  constructor
  · exact (C8_jaccard_properties "" "").1 ⟨by decide, by decide⟩
  · exact (C8_jaccard_properties "a" "a").2.1 (by decide)

/-- C10: on every non-empty member list the campaign threat-level
computation is total: a member whose tier string is not one of
LOW/MEDIUM/HIGH/CRITICAL is counted as LOW (score 1) in the average, and
the result is always one of the four tier strings. -/
theorem C10_campaign_threat_total (contents : List CampaignContent)
    (h : contents ≠ []) :
    (calculate_campaign_threat_level contents = "LOW" ∨
     calculate_campaign_threat_level contents = "MEDIUM" ∨
     calculate_campaign_threat_level contents = "HIGH" ∨
     calculate_campaign_threat_level contents = "CRITICAL") ∧
    calculate_campaign_threat_level contents =
      calculate_campaign_threat_level (contents.map (fun c =>
        if c.threat_level = "LOW" ∨ c.threat_level = "MEDIUM" ∨
           c.threat_level = "HIGH" ∨ c.threat_level = "CRITICAL"
        then c else { c with threat_level := "LOW" })) := by
  constructor
  · have hx : ∀ x : ℚ,
        (if x ≥ 7/2 then "CRITICAL" else if x ≥ 5/2 then "HIGH"
         else if x ≥ 3/2 then "MEDIUM" else "LOW") = "LOW" ∨
        (if x ≥ 7/2 then "CRITICAL" else if x ≥ 5/2 then "HIGH"
         else if x ≥ 3/2 then "MEDIUM" else "LOW") = "MEDIUM" ∨
        (if x ≥ 7/2 then "CRITICAL" else if x ≥ 5/2 then "HIGH"
         else if x ≥ 3/2 then "MEDIUM" else "LOW") = "HIGH" ∨
        (if x ≥ 7/2 then "CRITICAL" else if x ≥ 5/2 then "HIGH"
         else if x ≥ 3/2 then "MEDIUM" else "LOW") = "CRITICAL" :=
      fun x => by split_ifs <;> tauto
    exact hx _
  · have hfun : (fun c => (threatScoreLookup (CampaignContent.threat_level c) : ℚ)) ∘
        (fun c => if c.threat_level = "LOW" ∨ c.threat_level = "MEDIUM" ∨
            c.threat_level = "HIGH" ∨ c.threat_level = "CRITICAL"
          then c else { c with threat_level := "LOW" }) =
        fun c => (threatScoreLookup c.threat_level : ℚ) := by
      funext c
      by_cases hc : c.threat_level = "LOW" ∨ c.threat_level = "MEDIUM" ∨
          c.threat_level = "HIGH" ∨ c.threat_level = "CRITICAL"
      · simp only [Function.comp_apply, if_pos hc]
      · simp only [Function.comp_apply, if_neg hc]
        push_neg at hc
        simp [threatScoreLookup, hc.1, hc.2.1, hc.2.2.1, hc.2.2.2]
    unfold calculate_campaign_threat_level
    rw [List.map_map, hfun, List.length_map]

/-- C10 witness: a singleton member list carrying the unrecognised tier
string `"UNKNOWN"` is tolerated, and its threat level is one of the four
tier strings. -/
theorem C10_campaign_threat_total_witness :
    (calculate_campaign_threat_level [{ (default : CampaignContent) with
      threat_level := "UNKNOWN" }] = "LOW" ∨
     calculate_campaign_threat_level [{ (default : CampaignContent) with
      threat_level := "UNKNOWN" }] = "MEDIUM" ∨
     calculate_campaign_threat_level [{ (default : CampaignContent) with
      threat_level := "UNKNOWN" }] = "HIGH" ∨
     calculate_campaign_threat_level [{ (default : CampaignContent) with
      threat_level := "UNKNOWN" }] = "CRITICAL") := by
  exact (C10_campaign_threat_total
    [{ (default : CampaignContent) with threat_level := "UNKNOWN" }]
    (by simp)).1

/-- `pyDedupAux` output is duplicate-free and avoids the `seen` set. -/
lemma pyDedupAux_nodup_avoid {α : Type} [DecidableEq α] (l : List α) :
    ∀ seen : List α,
      (pyDedupAux seen l).Nodup ∧ ∀ a ∈ pyDedupAux seen l, a ∉ seen := by
  induction l with
  | nil => intro seen; simp [pyDedupAux]
  | cons b l ih =>
    intro seen
    by_cases hb : b ∈ seen
    · simpa [pyDedupAux, hb] using ih seen
    · have h2 := ih (b :: seen)
      have heq : pyDedupAux seen (b :: l) = b :: pyDedupAux (b :: seen) l := by
        simp [pyDedupAux, hb]
      refine ⟨?_, ?_⟩
      · rw [heq]
        exact List.nodup_cons.mpr
          ⟨fun hmem => (h2.2 b hmem) (List.mem_cons_self b _), h2.1⟩
      · intro a ha
        rw [heq] at ha
        rcases List.mem_cons.mp ha with rfl | ha
        · exact hb
        · exact fun hs => (h2.2 a ha) (List.mem_cons_of_mem _ hs)

/-- `pyDedup` output has no duplicates. -/
lemma pyDedup_nodup {α : Type} [DecidableEq α] (l : List α) :
    (pyDedup l).Nodup :=
  (pyDedupAux_nodup_avoid l []).1

/-- Membership through `pyDedupAux`. -/
lemma pyDedupAux_mem {α : Type} [DecidableEq α] (l : List α) (a : α) :
    ∀ seen, a ∈ pyDedupAux seen l ↔ a ∈ l ∧ a ∉ seen := by
  induction l with
  | nil => intro seen; simp [pyDedupAux]
  | cons b l ih =>
    intro seen
    by_cases hb : b ∈ seen
    · rw [show pyDedupAux seen (b :: l) = pyDedupAux seen l from by
        simp [pyDedupAux, hb], ih]
      constructor
      · rintro ⟨h1, h2⟩; exact ⟨List.mem_cons_of_mem _ h1, h2⟩
      · rintro ⟨h1, h2⟩
        rcases List.mem_cons.mp h1 with rfl | h1
        · exact absurd hb h2
        · exact ⟨h1, h2⟩
    · rw [show pyDedupAux seen (b :: l) = b :: pyDedupAux (b :: seen) l from by
        simp [pyDedupAux, hb]]
      by_cases hab : a = b
      · subst hab; simp [hb]
      · simp only [List.mem_cons, hab, false_or, ih, not_or]

/-- `pyDedup` preserves membership. -/
lemma pyDedup_mem {α : Type} [DecidableEq α] (l : List α) (a : α) :
    a ∈ pyDedup l ↔ a ∈ l := by
  rw [pyDedup, pyDedupAux_mem]
  simp

/-- When no item repeats a hashtag, the per-key group of
`_detect_hashtag_coordination` is exactly the items carrying it. -/
lemma hashtagGroup_eq_filter {h : String} :
    ∀ {contents : List CampaignContent},
    (∀ c ∈ contents, (c.hashtags.map pyLower).count h ≤ 1) →
    hashtagGroup contents h =
      contents.filter (fun c => h ∈ c.hashtags.map pyLower) := by
  intro contents
  induction contents with
  | nil => intro _; rfl
  | cons c l ih =>
    intro hocc
    have hc : (c.hashtags.map pyLower).count h ≤ 1 :=
      hocc c (List.mem_cons_self _ _)
    have ihl := ih (fun c' hc' => hocc c' (List.mem_cons_of_mem _ hc'))
    have hcons : hashtagGroup (c :: l) h =
        List.replicate ((c.hashtags.map pyLower).count h) c ++
          hashtagGroup l h := by
      simp [hashtagGroup]
    rw [hcons]
    rcases Nat.le_one_iff_eq_zero_or_eq_one.mp hc with h0 | h1
    · have hnot : h ∉ c.hashtags.map pyLower := List.count_eq_zero.mp h0
      rw [h0, List.replicate_zero, List.nil_append, ihl,
        List.filter_cons_of_neg (by simpa using hnot)]
    · have hmem : h ∈ c.hashtags.map pyLower := by
        by_contra hn
        rw [List.count_eq_zero.mpr hn] at h1
        exact absurd h1 (by norm_num)
      rw [h1, List.replicate_one, ihl,
        List.filter_cons_of_pos (by simpa using hmem)]
      rfl

/-- Every campaign emitted for a key carries that key as its hashtag. -/
lemma hashtagCampaignFor_hashtag {contents : List CampaignContent}
    {h : String} {camp : HashtagCampaign}
    (hc : hashtagCampaignFor contents h = some camp) :
    camp.hashtag = h := by
  simp only [hashtagCampaignFor] at hc
  split_ifs at hc with h1 h2
  · cases hc; rfl

/-- Counting the campaigns reported for one hashtag over a duplicate-free
key list: one if the key is present and its reporting step fires, zero
otherwise. -/
lemma filterMap_key_count (contents : List CampaignContent) (h : String) :
    ∀ keys : List String, keys.Nodup →
      ((keys.filterMap (hashtagCampaignFor contents)).filter
        (fun camp => camp.hashtag = h)).length =
      if h ∈ keys ∧ (hashtagCampaignFor contents h).isSome then 1 else 0 := by
  intro keys
  induction keys with
  | nil => intro _; simp
  | cons k ks ih =>
    intro hnd
    have hk_not : k ∉ ks := (List.nodup_cons.mp hnd).1
    have ihk := ih (List.nodup_cons.mp hnd).2
    cases hfk : hashtagCampaignFor contents k with
    | none =>
      rw [List.filterMap_cons_none hfk, ihk]
      by_cases hk : h = k
      · subst hk
        simp [hfk, hk_not]
      · simp [List.mem_cons, hk]
    | some camp =>
      have hck : camp.hashtag = k := hashtagCampaignFor_hashtag hfk
      rw [List.filterMap_cons_some hfk]
      by_cases hk : h = k
      · subst hk
        rw [List.filter_cons_of_pos (by simpa using hck),
          List.length_cons, ihk, if_neg (by simp [hk_not]), if_pos]
        exact ⟨List.mem_cons_self _ _, by simp [hfk]⟩
      · rw [List.filter_cons_of_neg (by simp [hck, Ne.symm hk]), ihk]
        simp [List.mem_cons, hk]

/-- C2 counterexample: only 4 items share the case-folded hashtag `"#x"`
(second and third conjunct: 4 sharing items, 3 distinct authors), but the
first item lists it twice (`["#X", "#x"]`); the source groups by occurrence,
so the group reaches the ≥ 5 threshold and one cluster is reported — not
zero as claimed for 4 sharing items. -/
theorem C2_hashtag_occurrence_counterexample :
    (((detect_hashtag_coordination
      [⟨"1", "twitter", "t1", "a", 0, [], ["#X", "#x"], [], "", 0, "LOW", []⟩,
       ⟨"2", "twitter", "t2", "b", 0, [], ["#X"], [], "", 0, "LOW", []⟩,
       ⟨"3", "twitter", "t3", "c", 0, [], ["#X"], [], "", 0, "LOW", []⟩,
       ⟨"4", "twitter", "t4", "a", 0, [], ["#X"], [], "", 0, "LOW", []⟩]).filter
        (fun camp => camp.hashtag = "#x")).length = 1) ∧
    ((([⟨"1", "twitter", "t1", "a", 0, [], ["#X", "#x"], [], "", 0, "LOW", []⟩,
       ⟨"2", "twitter", "t2", "b", 0, [], ["#X"], [], "", 0, "LOW", []⟩,
       ⟨"3", "twitter", "t3", "c", 0, [], ["#X"], [], "", 0, "LOW", []⟩,
       ⟨"4", "twitter", "t4", "a", 0, [], ["#X"], [], "", 0, "LOW", []⟩] :
        List CampaignContent).filter
        (fun c => "#x" ∈ c.hashtags.map pyLower)).length = 4) ∧
    ((pyDedup ((([⟨"1", "twitter", "t1", "a", 0, [], ["#X", "#x"], [], "", 0,
          "LOW", []⟩,
       ⟨"2", "twitter", "t2", "b", 0, [], ["#X"], [], "", 0, "LOW", []⟩,
       ⟨"3", "twitter", "t3", "c", 0, [], ["#X"], [], "", 0, "LOW", []⟩,
       ⟨"4", "twitter", "t4", "a", 0, [], ["#X"], [], "", 0, "LOW", []⟩] :
        List CampaignContent).filter
        (fun c => "#x" ∈ c.hashtags.map pyLower)).map
        (fun c => c.author))).length = 3) := by
  refine ⟨by decide, by decide, by decide⟩

/-- C2 (amended): the grouping counts hashtag occurrences, not items — each
item is appended once per occurrence of the case-folded hashtag, so an item
double-listing it can lift 4 sharing items over the ≥ 5 threshold.  On a
batch in which no single item repeats a case-folded hashtag, the claimed
thresholds hold: exactly 5 sharing items from exactly 3 distinct authors
yield exactly one cluster for that hashtag; only 4 sharing items, or only 2
distinct authors among 5, yield none. -/
theorem C2_hashtag_cluster_thresholds (contents : List CampaignContent)
    (h : String)
    (hocc : ∀ c ∈ contents, (c.hashtags.map pyLower).count h ≤ 1) :
    (((contents.filter (fun c => h ∈ c.hashtags.map pyLower)).length = 5 →
      (pyDedup ((contents.filter (fun c => h ∈ c.hashtags.map pyLower)).map
        (fun c => c.author))).length = 3 →
      ((detect_hashtag_coordination contents).filter
        (fun camp => camp.hashtag = h)).length = 1)) ∧
    (((contents.filter (fun c => h ∈ c.hashtags.map pyLower)).length = 4 →
      ((detect_hashtag_coordination contents).filter
        (fun camp => camp.hashtag = h)).length = 0)) ∧
    (((contents.filter (fun c => h ∈ c.hashtags.map pyLower)).length = 5 →
      (pyDedup ((contents.filter (fun c => h ∈ c.hashtags.map pyLower)).map
        (fun c => c.author))).length = 2 →
      ((detect_hashtag_coordination contents).filter
        (fun camp => camp.hashtag = h)).length = 0)) := by
  have hgrp := hashtagGroup_eq_filter (h := h) hocc
  have hcount := filterMap_key_count contents h
    (pyDedup (contents.flatMap (fun c => c.hashtags.map pyLower)))
    (pyDedup_nodup _)
  refine ⟨?_, ?_, ?_⟩
  · intro hlen5 hauth3
    have hmem_keys : h ∈ pyDedup (contents.flatMap
        (fun c => c.hashtags.map pyLower)) := by
      rw [pyDedup_mem]
      have hne : contents.filter (fun c => h ∈ c.hashtags.map pyLower) ≠ [] := by
        intro he; rw [he] at hlen5; simp at hlen5
      obtain ⟨c, hcmem⟩ := List.exists_mem_of_ne_nil _ hne
      have hcf := List.mem_filter.mp hcmem
      exact List.mem_flatMap.mpr ⟨c, hcf.1, by simpa using hcf.2⟩
    have hsome : (hashtagCampaignFor contents h).isSome := by
      simp only [hashtagCampaignFor]
      rw [hgrp, if_pos (by rw [hlen5]), if_pos (by rw [hauth3])]
      rfl
    rw [detect_hashtag_coordination, hcount, if_pos ⟨hmem_keys, hsome⟩]
  · intro hlen4
    have hnone : hashtagCampaignFor contents h = none := by
      simp only [hashtagCampaignFor]
      rw [hgrp, if_neg (by rw [hlen4]; norm_num)]
    rw [detect_hashtag_coordination, hcount, if_neg]
    rintro ⟨_, hs⟩
    rw [hnone] at hs
    simp at hs
  · intro hlen5 hauth2
    have hnone : hashtagCampaignFor contents h = none := by
      simp only [hashtagCampaignFor]
      rw [hgrp, if_pos (by rw [hlen5]), if_neg (by rw [hauth2]; norm_num)]
    rw [detect_hashtag_coordination, hcount, if_neg]
    rintro ⟨_, hs⟩
    rw [hnone] at hs
    simp at hs

/-- C2 witness: five items carrying `#X` from three distinct authors on one
day yield exactly one reported hashtag cluster for `#x`. -/
theorem C2_hashtag_cluster_thresholds_witness :
    ((detect_hashtag_coordination
      [⟨"1", "twitter", "t1", "a", 0, [], ["#X"], [], "", 0, "LOW", []⟩,
       ⟨"2", "twitter", "t2", "b", 0, [], ["#X"], [], "", 0, "LOW", []⟩,
       ⟨"3", "twitter", "t3", "c", 0, [], ["#X"], [], "", 0, "LOW", []⟩,
       ⟨"4", "twitter", "t4", "a", 0, [], ["#X"], [], "", 0, "LOW", []⟩,
       ⟨"5", "twitter", "t5", "b", 0, [], ["#X"], [], "", 0, "LOW", []⟩]).filter
        (fun camp => camp.hashtag = "#x")).length = 1 := by
  exact (C2_hashtag_cluster_thresholds _ "#x" (by decide)).1 (by decide) (by decide)

/-- C7 counterexample: in the `campaign_detector` store, adding over the
existing identity `"x"` does not fail and does not leave the stored rule
unchanged — the stored rule's category switches from `"a"` to `"b"` and its
detection count is silently reset from `3` to `0`. -/
theorem C7_duplicate_add_counterexample :
    ((add_keyword ⟨[⟨"x", "a", 5, 3, true⟩], [], []⟩ "x" "b" 7).keywords.map
      (fun r => (r.category, r.detection_count)) = [("b", 0)]) ∧
    (((⟨[⟨"x", "a", 5, 3, true⟩], [], []⟩ : KeywordDatabase)).keywords.map
      (fun r => (r.category, r.detection_count)) = [("a", 3)]) := by
  constructor <;> rfl

/-- C7 (amended): the enhanced store's `add_keyword` fails on a duplicate
lower-cased identity by returning `False` (a caught IntegrityError, not a
DuplicateRuleError) and leaves the store unchanged; on a fresh identity it
returns `True` (not an id) and appends the rule; there is no replace flag —
and the legacy `campaign_detector` store's `add_keyword` never fails: any
row stored under the same lower-cased text is silently replaced by the
fresh row. -/
theorem C7_add_rule_amended (db : EnhancedKeywordDatabase)
    (ldb : KeywordDatabase) (keyword category : String) (weight severity : ℚ)
    (language : String) :
    ((∃ r ∈ db.keywords, r.keyword = pyLower keyword) →
      enhanced_add_keyword db keyword category weight language = (false, db)) ∧
    ((∀ r ∈ db.keywords, r.keyword ≠ pyLower keyword) →
      enhanced_add_keyword db keyword category weight language =
        (true, ⟨db.keywords ++ [⟨pyLower keyword, category, weight, language⟩]⟩)) ∧
    (∀ r ∈ (add_keyword ldb keyword category severity).keywords,
      r.keyword = pyLower keyword →
        r = ⟨pyLower keyword, category, severity, 0, true⟩) := by
  refine ⟨?_, ?_, ?_⟩
  · rintro ⟨r, hr, hrk⟩
    have hc : db.keywords.any (fun r => decide (r.keyword = pyLower keyword)) = true :=
      List.any_eq_true.mpr ⟨r, hr, by simpa using hrk⟩
    simp [enhanced_add_keyword, hc]
  · intro hall
    have hc : db.keywords.any (fun r => decide (r.keyword = pyLower keyword)) = false := by
      rw [List.any_eq_false]
      intro r hr
      simpa using hall r hr
    simp [enhanced_add_keyword, hc]
  · intro r hr hrk
    rcases List.mem_append.mp hr with h1 | h1
    · exact absurd hrk (by simpa using (List.mem_filter.mp h1).2)
    · simpa using h1

/-- C7 witness: adding `"X"` over a store already holding `"x"` fails with
`False` and leaves the store unchanged. -/
theorem C7_add_rule_amended_witness :
    enhanced_add_keyword ⟨[⟨"x", "a", 2, "en"⟩]⟩ "X" "b" 3 "en" =
      (false, ⟨[⟨"x", "a", 2, "en"⟩]⟩) := by
  exact (C7_add_rule_amended ⟨[⟨"x", "a", 2, "en"⟩]⟩ ⟨[], [], []⟩ "X" "b" 3 3
    "en").1 ⟨⟨"x", "a", 2, "en"⟩, List.mem_cons_self _ _, by decide⟩

/-- Inserting into a sorted run permutes consing. -/
lemma insertDescBy_perm {α : Type} (key : α → ℚ) (x : α) :
    ∀ l : List α, (insertDescBy key x l).Perm (x :: l) := by
  intro l
  induction l with
  | nil => exact List.Perm.refl _
  | cons y ys ih =>
    by_cases hle : key y ≤ key x
    · rw [show insertDescBy key x (y :: ys) = x :: y :: ys from by
        simp [insertDescBy, hle]]
    · rw [show insertDescBy key x (y :: ys) = y :: insertDescBy key x ys from by
        simp [insertDescBy, hle]]
      exact ((List.perm_cons y).mpr ih).trans (List.Perm.swap x y ys)

/-- The stable descending sort is a permutation of its input. -/
lemma sortDescBy_perm {α : Type} (key : α → ℚ) (l : List α) :
    (sortDescBy key l).Perm l := by
  induction l with
  | nil => exact List.Perm.refl _
  | cons a l ih =>
    exact (insertDescBy_perm key a (sortDescBy key l)).trans
      ((List.perm_cons a).mpr ih)

/-- A key absent from the projection contributes no count. -/
lemma countP_key_notmem {α : Type} (keyf : α → String) (Q : α → Bool)
    (k : String) :
    ∀ rows : List α, k ∉ rows.map keyf →
      rows.countP (fun row => decide (keyf row = k) && Q row) = 0 := by
  intro rows hk
  rw [List.countP_eq_zero]
  intro a ha
  simp only [Bool.and_eq_true, decide_eq_true_eq, not_and]
  intro hak _
  exact hk (List.mem_map.mpr ⟨a, ha, hak⟩)

/-- Over a list with duplicate-free keys, the count of rows sharing a
member's key and satisfying `Q` is the indicator of `Q` at that member. -/
lemma countP_unique_key {α : Type} (keyf : α → String) (Q : α → Bool) :
    ∀ rows : List α, (rows.map keyf).Nodup → ∀ r ∈ rows,
      rows.countP (fun row => decide (keyf row = keyf r) && Q row) =
        if Q r then 1 else 0 := by
  intro rows
  induction rows with
  | nil => intro _ r hr; cases hr
  | cons s rows ih =>
    intro hnd r hr
    rw [List.map_cons] at hnd
    have hnd1 : keyf s ∉ rows.map keyf := (List.nodup_cons.mp hnd).1
    have hnd2 : (rows.map keyf).Nodup := (List.nodup_cons.mp hnd).2
    rcases List.mem_cons.mp hr with rfl | hr'
    · rw [List.countP_cons, countP_key_notmem keyf Q (keyf r) rows hnd1]
      simp
    · have hkr : keyf s ≠ keyf r := fun he =>
        hnd1 (he ▸ List.mem_map.mpr ⟨r, hr', rfl⟩)
      rw [List.countP_cons, ih hnd2 r hr']
      simp [hkr]

/-- Folding keyword-table detection updates equals a single per-row bump by
the number of matching update texts; the other tables are untouched. -/
lemma foldl_update_kw (texts : List (String × String × ℚ)) :
    ∀ db : KeywordDatabase,
      texts.foldl (fun d k => update_detection_count d k.1 "keyword") db =
        ⟨db.keywords.map (fun r =>
           { r with detection_count := r.detection_count +
               texts.countP (fun k => decide (r.keyword = pyLower k.1)) }),
         db.hashtags, db.patterns⟩ := by
  induction texts with
  | nil =>
    intro db
    rcases db with ⟨kws, hts, pats⟩
    simp only [List.foldl_nil, List.countP_nil, Nat.add_zero]
    congr 1
    exact ((List.map_congr_left fun r _ => by cases r; rfl).trans
      (List.map_id kws)).symm
  | cons t ts ih =>
    intro db
    rw [List.foldl_cons, ih]
    have hupd : update_detection_count db t.1 "keyword" =
        ⟨db.keywords.map (fun r => if r.keyword = pyLower t.1 then
           { r with detection_count := r.detection_count + 1 } else r),
         db.hashtags, db.patterns⟩ := by
      simp [update_detection_count]
    rw [hupd]
    congr 1
    rw [List.map_map]
    apply List.map_congr_left
    intro r _
    rcases r with ⟨rk, rc, rs, rd, ra⟩
    simp only [Function.comp_apply, List.countP_cons]
    by_cases hm : rk = pyLower t.1
    · simp [hm] <;> omega
    · simp [hm]

/-- Folding hashtag-table detection updates, mirror of `foldl_update_kw`. -/
lemma foldl_update_ht (texts : List (String × String × ℚ)) :
    ∀ db : KeywordDatabase,
      texts.foldl (fun d k => update_detection_count d k.1 "hashtag") db =
        ⟨db.keywords,
         db.hashtags.map (fun r =>
           { r with detection_count := r.detection_count +
               texts.countP (fun k => decide (r.hashtag = pyLower k.1)) }),
         db.patterns⟩ := by
  induction texts with
  | nil =>
    intro db
    rcases db with ⟨kws, hts, pats⟩
    simp only [List.foldl_nil, List.countP_nil, Nat.add_zero]
    congr 1
    exact ((List.map_congr_left fun r _ => by cases r; rfl).trans
      (List.map_id hts)).symm
  | cons t ts ih =>
    intro db
    rw [List.foldl_cons, ih]
    have hupd : update_detection_count db t.1 "hashtag" =
        ⟨db.keywords,
         db.hashtags.map (fun r => if r.hashtag = pyLower t.1 then
           { r with detection_count := r.detection_count + 1 } else r),
         db.patterns⟩ := by
      simp [update_detection_count]
    rw [hupd]
    congr 1
    rw [List.map_map]
    apply List.map_congr_left
    intro r _
    rcases r with ⟨rh, rc, rs, rd⟩
    simp only [Function.comp_apply, List.countP_cons]
    by_cases hm : rh = pyLower t.1
    · simp [hm] <;> omega
    · simp [hm]

/-- The database component of the keyword-matching loop: the fold of
per-match detection updates over the matched snapshot entries. -/
lemma kwfold_db (contentLower : String)
    (snapshot : List (String × String × ℚ)) :
    ∀ acc : List MatchedRule × ℚ × KeywordDatabase,
      (snapshot.foldl (fun acc kcs =>
          if strContains contentLower (pyLower kcs.1) then
            (acc.1 ++ [⟨kcs.1, kcs.2.1, kcs.2.2⟩], acc.2.1 + kcs.2.2,
             update_detection_count acc.2.2 kcs.1 "keyword")
          else acc) acc).2.2 =
      (snapshot.filter (fun kcs =>
          strContains contentLower (pyLower kcs.1))).foldl
        (fun d kcs => update_detection_count d kcs.1 "keyword") acc.2.2 := by
  induction snapshot with
  | nil => intro acc; rfl
  | cons k ks ih =>
    intro acc
    by_cases hm : strContains contentLower (pyLower k.1)
    · rw [List.foldl_cons, List.filter_cons_of_pos (by simpa using hm),
        List.foldl_cons, if_pos hm]
      exact ih _
    · rw [List.foldl_cons, List.filter_cons_of_neg (by simpa using hm),
        if_neg hm]
      exact ih acc

/-- Mirror of `kwfold_db` for the hashtag-matching loop. -/
lemma htfold_db (contentLower : String)
    (snapshot : List (String × String × ℚ)) :
    ∀ acc : List MatchedRule × ℚ × KeywordDatabase,
      (snapshot.foldl (fun acc kcs =>
          if strContains contentLower (pyLower kcs.1) then
            (acc.1 ++ [⟨kcs.1, kcs.2.1, kcs.2.2⟩], acc.2.1 + kcs.2.2,
             update_detection_count acc.2.2 kcs.1 "hashtag")
          else acc) acc).2.2 =
      (snapshot.filter (fun kcs =>
          strContains contentLower (pyLower kcs.1))).foldl
        (fun d kcs => update_detection_count d kcs.1 "hashtag") acc.2.2 := by
  induction snapshot with
  | nil => intro acc; rfl
  | cons k ks ih =>
    intro acc
    by_cases hm : strContains contentLower (pyLower k.1)
    · rw [List.foldl_cons, List.filter_cons_of_pos (by simpa using hm),
        List.foldl_cons, if_pos hm]
      exact ih _
    · rw [List.foldl_cons, List.filter_cons_of_neg (by simpa using hm),
        if_neg hm]
      exact ih acc

/-- The matched-entry count of the active-keyword snapshot at one stored
row: the indicator of the row being active and matched. -/
lemma matched_count_kw (db : KeywordDatabase) (contentLower : String)
    (hkl : ∀ r ∈ db.keywords, pyLower r.keyword = r.keyword)
    (hkn : (db.keywords.map (fun r => r.keyword)).Nodup)
    (r : KwRow) (hr : r ∈ db.keywords) :
    ((get_active_keywords db).filter (fun kcs =>
        strContains contentLower (pyLower kcs.1))).countP
      (fun k => decide (r.keyword = pyLower k.1)) =
    if r.is_active && strContains contentLower r.keyword then 1 else 0 := by
  trans (db.keywords.countP (fun row => decide (row.keyword = r.keyword) &&
      (row.is_active && strContains contentLower row.keyword)))
  · rw [List.countP_filter]
    unfold get_active_keywords
    rw [List.countP_map, (sortDescBy_perm _ _).countP_eq, List.countP_filter]
    apply List.countP_congr
    intro row hrow
    simp only [Function.comp_apply, Bool.and_eq_true, decide_eq_true_eq,
      hkl row hrow]
    constructor
    · rintro ⟨⟨h1, h2⟩, h3⟩
      exact ⟨h1.symm, h3, h2⟩
    · rintro ⟨h1, h2, h3⟩
      exact ⟨⟨h1.symm, h3⟩, h2⟩
  · exact countP_unique_key (fun row => row.keyword)
      (fun row => row.is_active && strContains contentLower row.keyword)
      db.keywords hkn r hr

/-- Mirror of `matched_count_kw` for the hashtag snapshot (all rows, no
active filter). -/
lemma matched_count_ht (db : KeywordDatabase) (contentLower : String)
    (hhl : ∀ r ∈ db.hashtags, pyLower r.hashtag = r.hashtag)
    (hhn : (db.hashtags.map (fun r => r.hashtag)).Nodup)
    (r : HtRow) (hr : r ∈ db.hashtags) :
    ((get_hashtags db).filter (fun kcs =>
        strContains contentLower (pyLower kcs.1))).countP
      (fun k => decide (r.hashtag = pyLower k.1)) =
    if strContains contentLower r.hashtag then 1 else 0 := by
  trans (db.hashtags.countP (fun row => decide (row.hashtag = r.hashtag) &&
      strContains contentLower row.hashtag))
  · rw [List.countP_filter]
    unfold get_hashtags
    rw [List.countP_map, (sortDescBy_perm _ _).countP_eq]
    apply List.countP_congr
    intro row hrow
    simp only [Function.comp_apply, Bool.and_eq_true, decide_eq_true_eq,
      hhl row hrow]
    constructor
    · rintro ⟨h1, h2⟩
      exact ⟨h1.symm, h2⟩
    · rintro ⟨h1, h2⟩
      exact ⟨h1.symm, h2⟩
  · exact countP_unique_key (fun row => row.hashtag)
      (fun row => strContains contentLower row.hashtag)
      db.hashtags hhn r hr

/-- C3 counterexample: a snapshot holding one regex-pattern rule that
matches the text — the pattern is matched (it appears in
`matched_patterns`) yet its stored detection count stays `0`; the claim
would require it to become `1`. -/
theorem C3_detection_count_counterexample :
    ((extract_features (load_nlp_resources ⟨[], [], [⟨"p", "desc", 5, 0⟩]⟩)
        ⟨[], [], [⟨"p", "desc", 5, 0⟩]⟩ (fun _ _ => true) (fun _ => 0)
        "anything").1.matched_patterns ≠ []) ∧
    ((extract_features (load_nlp_resources ⟨[], [], [⟨"p", "desc", 5, 0⟩]⟩)
        ⟨[], [], [⟨"p", "desc", 5, 0⟩]⟩ (fun _ _ => true) (fun _ => 0)
        "anything").2.patterns.map (fun row => row.detection_count) = [0]) := by
  constructor
  · decide
  · rfl

/-- C3 (amended): per scoring call, each matched keyword rule and each
matched hashtag rule has its detection count incremented exactly once
(provided the stored texts are lower-case and pairwise distinct, as the
seeded rule sets are after lower-casing), every unmatched rule is
unchanged — but regex-pattern rules are never incremented, matched or
not. -/
theorem C3_detection_count_amended (db : KeywordDatabase)
    (regexMatch : String → String → Bool) (sentiment : String → ℚ)
    (content : String)
    (hkl : ∀ r ∈ db.keywords, pyLower r.keyword = r.keyword)
    (hkn : (db.keywords.map (fun r => r.keyword)).Nodup)
    (hhl : ∀ r ∈ db.hashtags, pyLower r.hashtag = r.hashtag)
    (hhn : (db.hashtags.map (fun r => r.hashtag)).Nodup) :
    (extract_features (load_nlp_resources db) db regexMatch sentiment
        content).2 =
      ⟨db.keywords.map (fun r =>
         if r.is_active && strContains (pyLower content) r.keyword then
           { r with detection_count := r.detection_count + 1 } else r),
       db.hashtags.map (fun r =>
         if strContains (pyLower content) r.hashtag then
           { r with detection_count := r.detection_count + 1 } else r),
       db.patterns⟩ := by
  show (hashtagPass
      (keywordPass db (get_active_keywords db) (pyLower content)).2.2
      (get_hashtags db) (pyLower content)).2.2 = _
  have hkwdb : (keywordPass db (get_active_keywords db) (pyLower content)).2.2 =
      ⟨db.keywords.map (fun r =>
         { r with detection_count := r.detection_count +
             (((get_active_keywords db).filter (fun kcs =>
                 strContains (pyLower content) (pyLower kcs.1))).countP (fun k => decide (r.keyword = pyLower k.1))) }),
       db.hashtags, db.patterns⟩ := by
    rw [show (keywordPass db (get_active_keywords db) (pyLower content)).2.2 =
        ((get_active_keywords db).filter (fun kcs =>
            strContains (pyLower content) (pyLower kcs.1))).foldl
          (fun d kcs => update_detection_count d kcs.1 "keyword") db from
      kwfold_db (pyLower content) (get_active_keywords db) ([], 0, db)]
    rw [foldl_update_kw]
  have hhtdb : ∀ db' : KeywordDatabase,
      (hashtagPass db' (get_hashtags db) (pyLower content)).2.2 =
      ⟨db'.keywords,
       db'.hashtags.map (fun r =>
         { r with detection_count := r.detection_count +
             (((get_hashtags db).filter (fun kcs =>
                 strContains (pyLower content) (pyLower kcs.1))).countP (fun k => decide (r.hashtag = pyLower k.1))) }),
       db'.patterns⟩ := by
    intro db'
    rw [show (hashtagPass db' (get_hashtags db) (pyLower content)).2.2 =
        ((get_hashtags db).filter (fun kcs =>
            strContains (pyLower content) (pyLower kcs.1))).foldl
          (fun d kcs => update_detection_count d kcs.1 "hashtag") db' from
      htfold_db (pyLower content) (get_hashtags db) ([], 0, db')]
    rw [foldl_update_ht]
  rw [hhtdb, hkwdb]
  congr 1
  · apply List.map_congr_left
    intro r hr
    rw [matched_count_kw db (pyLower content) hkl hkn r hr]
    by_cases hc : r.is_active && strContains (pyLower content) r.keyword
    · simp [hc]
    · simp [hc]
  · apply List.map_congr_left
    intro r hr
    rw [matched_count_ht db (pyLower content) hhl hhn r hr]
    by_cases hc : strContains (pyLower content) r.hashtag
    · simp [hc]
    · simp [hc]

/-- C3 witness: a store with one active lower-case keyword, one lower-case
hashtag and one pattern, on a text matching only the keyword — the keyword
row's count becomes 1, the hashtag and pattern rows stay at 0. -/
theorem C3_detection_count_amended_witness :
    (extract_features
        (load_nlp_resources ⟨[⟨"boycott india", "e", 7, 0, true⟩],
          [⟨"#antiindia", "d", 8, 0⟩], [⟨"p", "desc", 5, 0⟩]⟩)
        ⟨[⟨"boycott india", "e", 7, 0, true⟩], [⟨"#antiindia", "d", 8, 0⟩],
          [⟨"p", "desc", 5, 0⟩]⟩
        (fun _ _ => false) (fun _ => 0) "Boycott India today").2 =
      ⟨[⟨"boycott india", "e", 7, 1, true⟩], [⟨"#antiindia", "d", 8, 0⟩],
        [⟨"p", "desc", 5, 0⟩]⟩ := by
  rw [C3_detection_count_amended _ _ _ _ (by decide) (by decide) (by decide)
    (by decide)]
  rfl

/-- Inserting into a descending run keeps it descending. -/
lemma insertDescBy_pairwise {α : Type} (key : α → ℚ) (x : α) :
    ∀ l : List α, l.Pairwise (fun a b => key b ≤ key a) →
      (insertDescBy key x l).Pairwise (fun a b => key b ≤ key a) := by
  intro l
  induction l with
  | nil => intro _; simp [insertDescBy]
  | cons y ys ih =>
    intro hp
    rcases List.pairwise_cons.mp hp with ⟨hy, hys⟩
    by_cases hle : key y ≤ key x
    · rw [show insertDescBy key x (y :: ys) = x :: y :: ys from by
        simp [insertDescBy, hle]]
      refine List.pairwise_cons.mpr ⟨?_, hp⟩
      intro z hz
      rcases List.mem_cons.mp hz with rfl | hz
      · exact hle
      · exact (hy z hz).trans hle
    · rw [show insertDescBy key x (y :: ys) = y :: insertDescBy key x ys from by
        simp [insertDescBy, hle]]
      refine List.pairwise_cons.mpr ⟨?_, ih hys⟩
      intro z hz
      rcases List.mem_cons.mp ((insertDescBy_perm key x ys).mem_iff.mp hz) with
        rfl | hz'
      · exact le_of_not_le hle
      · exact hy z hz'

/-- The stable descending sort produces a weakly descending run. -/
lemma sortDescBy_pairwise {α : Type} (key : α → ℚ) (l : List α) :
    (sortDescBy key l).Pairwise (fun a b => key b ≤ key a) := by
  induction l with
  | nil => simp [sortDescBy]
  | cons a l ih => exact insertDescBy_pairwise key a _ ih

/-- Filtering one key class through a descending insertion: the inserted
element lands in front of its own class and leaves every other class
untouched. -/
lemma insertDescBy_filter_eq {α : Type} (key : α → ℚ) (x : α) (s : ℚ) :
    ∀ l : List α,
      (insertDescBy key x l).filter (fun a => decide (key a = s)) =
        if key x = s then x :: l.filter (fun a => decide (key a = s))
        else l.filter (fun a => decide (key a = s)) := by
  intro l
  induction l with
  | nil =>
    by_cases hx : key x = s
    · simp [insertDescBy, hx]
    · simp [insertDescBy, hx]
  | cons y ys ih =>
    by_cases hle : key y ≤ key x
    · rw [show insertDescBy key x (y :: ys) = x :: y :: ys from by
        simp [insertDescBy, hle]]
      by_cases hx : key x = s
      · simp [List.filter_cons, hx]
      · simp [List.filter_cons, hx]
    · rw [show insertDescBy key x (y :: ys) = y :: insertDescBy key x ys from by
        simp [insertDescBy, hle]]
      by_cases hy : key y = s
      · have hx : ¬ key x = s := fun hxs => hle (by rw [hy, hxs])
        simp [List.filter_cons, hy, hx, ih]
      · simp [List.filter_cons, hy, ih]

/-- Stability of the descending sort: within one key class the sorted order
is the input order. -/
lemma sortDescBy_filter_key {α : Type} (key : α → ℚ) (s : ℚ) :
    ∀ l : List α,
      (sortDescBy key l).filter (fun a => decide (key a = s)) =
        l.filter (fun a => decide (key a = s)) := by
  intro l
  induction l with
  | nil => rfl
  | cons a l ih =>
    show (insertDescBy key a (sortDescBy key l)).filter _ = _
    rw [insertDescBy_filter_eq, ih]
    by_cases ha : key a = s
    · simp [List.filter_cons, ha]
    · simp [List.filter_cons, ha]

/-- C4 counterexample: three authors `"b"`, `"a"`, `"c"` with identical
influence scores (50 each) come back in first-appearance order
`["b", "a", "c"]` — neither ascending nor descending in the author
identifier, so ties are not broken by the author identifier. -/
theorem C4_influencer_tie_order_counterexample :
    ((identify_influencers
      [⟨"1", "p", "t1", "b", 0, [], [], [], "", 0, "LOW", []⟩,
       ⟨"2", "p", "t2", "a", 0, [], [], [], "", 0, "LOW", []⟩,
       ⟨"3", "p", "t3", "c", 0, [], [], [], "", 0, "LOW", []⟩]).map
        (fun i => i.author) = ["b", "a", "c"]) ∧
    ((identify_influencers
      [⟨"1", "p", "t1", "b", 0, [], [], [], "", 0, "LOW", []⟩,
       ⟨"2", "p", "t2", "a", 0, [], [], [], "", 0, "LOW", []⟩,
       ⟨"3", "p", "t3", "c", 0, [], [], [], "", 0, "LOW", []⟩]).map
        (fun i => i.influence_score) = [50, 50, 50]) ∧
    (["b", "a", "c"] ≠ ["a", "b", "c"] ∧ ["b", "a", "c"] ≠ ["c", "b", "a"]) := by
  refine ⟨?_, ?_, by decide⟩ <;>
    norm_num +decide [identify_influencers, influencerList, sortDescBy, insertDescBy,
      authorMetrics, influenceScore, analyze_engagement_is_viral, eget,
      engagementTotal, postThreatScore, pyDedup, pyDedupAux,
      List.filter_cons, List.filter_nil, List.map_cons, List.map_nil,
      List.sum_cons, List.sum_nil, Function.comp_def]

/-- C4 (amended): every influencer record's score is
`total_engagement·0.4 + viral_posts·100 + threat_score·10 + platforms·50`
with threat contributions summed per post (`CRITICAL 10 / HIGH 5 /
MEDIUM 2 / else 0`); the list is sorted by influence score descending; and
ties between equal scores are kept in the order of the authors' first
appearance in the input batch (Python's stable sort), not reordered by the
author identifier. -/
theorem C4_influencer_ranking_amended (contents : List CampaignContent) :
    ((identify_influencers contents).map
        (fun i => (i.author, i.influence_score)) =
      (identify_influencers contents).map (fun i => (i.author,
        (i.metrics.total_engagement : ℚ) * (2/5) +
          (i.metrics.viral_posts : ℚ) * 100 +
          (i.metrics.threat_score : ℚ) * 10 +
          (i.metrics.platforms.length : ℚ) * 50))) ∧
    ((identify_influencers contents).map
        (fun i => (i.author, i.metrics.threat_score)) =
      (identify_influencers contents).map (fun i => (i.author,
        ((contents.filter (fun c => c.author = i.author)).map
          (fun c => postThreatScore c.threat_level)).sum))) ∧
    ((identify_influencers contents).Pairwise
      (fun a b => b.influence_score ≤ a.influence_score)) ∧
    (∀ s : ℚ, (identify_influencers contents).filter
        (fun i => i.influence_score = s) =
      (influencerList contents).filter (fun i => i.influence_score = s)) ∧
    ((identify_influencers contents).Perm (influencerList contents)) ∧
    ((influencerList contents).map (fun i => i.author) =
      pyDedup (contents.map (fun c => c.author))) := by
  refine ⟨?_, ?_, ?_, ?_, ?_, ?_⟩
  · apply List.map_congr_left
    intro i hi
    obtain ⟨a, ha, rfl⟩ := List.mem_map.mp
      ((sortDescBy_perm _ _).mem_iff.mp hi)
    rfl
  · apply List.map_congr_left
    intro i hi
    obtain ⟨a, ha, rfl⟩ := List.mem_map.mp
      ((sortDescBy_perm _ _).mem_iff.mp hi)
    rfl
  · exact sortDescBy_pairwise _ _
  · intro s
    exact sortDescBy_filter_key (fun i => i.influence_score) s
      (influencerList contents)
  · exact sortDescBy_perm _ _
  · simp [influencerList, List.map_map, Function.comp_def]

/-- Items absorbed by a similarity seed come from the remaining batch and
were not yet processed. -/
lemma gatherSimilar_mem (c1 : CampaignContent) :
    ∀ (rest : List (ℕ × CampaignContent)) (processed : List ℕ)
      (x : ℕ × CampaignContent),
      x ∈ (gatherSimilar c1 rest processed).1 →
        x ∈ rest ∧ x.1 ∉ processed := by
  intro rest
  induction rest with
  | nil => intro processed x hx; simp [gatherSimilar] at hx
  | cons jc rs ih =>
    intro processed x hx
    rcases jc with ⟨j, c2⟩
    by_cases hj : j ∈ processed
    · rw [show gatherSimilar c1 ((j, c2) :: rs) processed =
          gatherSimilar c1 rs processed from by simp [gatherSimilar, hj]] at hx
      have := ih processed x hx
      exact ⟨List.mem_cons_of_mem _ this.1, this.2⟩
    · by_cases hsim : 4/5 <
          calculate_content_similarity c1.content c2.content
      · rw [show gatherSimilar c1 ((j, c2) :: rs) processed =
            ((j, c2) :: (gatherSimilar c1 rs (j :: processed)).1,
             (gatherSimilar c1 rs (j :: processed)).2) from by
          simp [gatherSimilar, hj, hsim]] at hx
        rcases List.mem_cons.mp hx with rfl | hx
        · exact ⟨List.mem_cons_self _ _, hj⟩
        · have := ih (j :: processed) x hx
          exact ⟨List.mem_cons_of_mem _ this.1,
            fun hp => this.2 (List.mem_cons_of_mem _ hp)⟩
      · rw [show gatherSimilar c1 ((j, c2) :: rs) processed =
            gatherSimilar c1 rs processed from by
          simp [gatherSimilar, hj, hsim]] at hx
        have := ih processed x hx
        exact ⟨List.mem_cons_of_mem _ this.1, this.2⟩

/-- The processed set returned by the absorption scan contains the incoming
processed set and the index of every absorbed item. -/
lemma gatherSimilar_proc (c1 : CampaignContent) :
    ∀ (rest : List (ℕ × CampaignContent)) (processed : List ℕ),
      (∀ j ∈ processed, j ∈ (gatherSimilar c1 rest processed).2) ∧
      (∀ x ∈ (gatherSimilar c1 rest processed).1,
        x.1 ∈ (gatherSimilar c1 rest processed).2) := by
  intro rest
  induction rest with
  | nil => intro processed; simp [gatherSimilar]
  | cons jc rs ih =>
    intro processed
    rcases jc with ⟨j, c2⟩
    by_cases hj : j ∈ processed
    · rw [show gatherSimilar c1 ((j, c2) :: rs) processed =
          gatherSimilar c1 rs processed from by simp [gatherSimilar, hj]]
      exact ih processed
    · by_cases hsim : 4/5 <
          calculate_content_similarity c1.content c2.content
      · rw [show gatherSimilar c1 ((j, c2) :: rs) processed =
            ((j, c2) :: (gatherSimilar c1 rs (j :: processed)).1,
             (gatherSimilar c1 rs (j :: processed)).2) from by
          simp [gatherSimilar, hj, hsim]]
        refine ⟨?_, ?_⟩
        · exact fun j' hj' =>
            (ih (j :: processed)).1 j' (List.mem_cons_of_mem _ hj')
        · intro x hx
          rcases List.mem_cons.mp hx with rfl | hx
          · exact (ih (j :: processed)).1 j (List.mem_cons_self _ _)
          · exact (ih (j :: processed)).2 x hx
      · rw [show gatherSimilar c1 ((j, c2) :: rs) processed =
            gatherSimilar c1 rs processed from by
          simp [gatherSimilar, hj, hsim]]
        exact ih processed

/-- Every member of every formed similarity group comes from the scanned
batch and was unprocessed when its pass started. -/
lemma simGroups_mem :
    ∀ (l : List (ℕ × CampaignContent)) (processed : List ℕ)
      (gb : List (ℕ × CampaignContent) × Bool), gb ∈ simGroups l processed →
      ∀ x ∈ gb.1, x ∈ l ∧ x.1 ∉ processed := by
  intro l
  induction l with
  | nil => intro processed gb hgb; simp [simGroups] at hgb
  | cons ic rest ih =>
    intro processed gb hgb x hx
    rcases ic with ⟨i, c1⟩
    by_cases hi : i ∈ processed
    · rw [show simGroups ((i, c1) :: rest) processed =
          simGroups rest processed from by simp [simGroups, hi]] at hgb
      have := ih processed gb hgb x hx
      exact ⟨List.mem_cons_of_mem _ this.1, this.2⟩
    · by_cases hrep : similarityReported
          ((i, c1) :: (gatherSimilar c1 rest processed).1)
      · rw [show simGroups ((i, c1) :: rest) processed =
            ((i, c1) :: (gatherSimilar c1 rest processed).1, true) ::
              simGroups rest (i :: (gatherSimilar c1 rest processed).2) from by
          simp [simGroups, hi, hrep]] at hgb
        rcases List.mem_cons.mp hgb with rfl | hgb
        · rcases List.mem_cons.mp hx with rfl | hx
          · exact ⟨List.mem_cons_self _ _, hi⟩
          · have := gatherSimilar_mem c1 rest processed x hx
            exact ⟨List.mem_cons_of_mem _ this.1, this.2⟩
        · have := ih (i :: (gatherSimilar c1 rest processed).2) gb hgb x hx
          refine ⟨List.mem_cons_of_mem _ this.1, fun hp => this.2 ?_⟩
          exact List.mem_cons_of_mem _
            ((gatherSimilar_proc c1 rest processed).1 x.1 hp)
      · rw [show simGroups ((i, c1) :: rest) processed =
            ((i, c1) :: (gatherSimilar c1 rest processed).1, false) ::
              simGroups rest (gatherSimilar c1 rest processed).2 from by
          simp [simGroups, hi, hrep]] at hgb
        rcases List.mem_cons.mp hgb with rfl | hgb
        · rcases List.mem_cons.mp hx with rfl | hx
          · exact ⟨List.mem_cons_self _ _, hi⟩
          · have := gatherSimilar_mem c1 rest processed x hx
            exact ⟨List.mem_cons_of_mem _ this.1, this.2⟩
        · have := ih (gatherSimilar c1 rest processed).2 gb hgb x hx
          exact ⟨List.mem_cons_of_mem _ this.1,
            fun hp => this.2 ((gatherSimilar_proc c1 rest processed).1 x.1 hp)⟩

/-- On a batch with duplicate-free indices, the formed similarity groups
(reported or not) are pairwise disjoint in their member indices. -/
lemma simGroups_pairwise :
    ∀ (l : List (ℕ × CampaignContent)) (processed : List ℕ),
      (l.map Prod.fst).Nodup →
      (simGroups l processed).Pairwise
        (fun g1 g2 => ∀ j ∈ g1.1.map Prod.fst, j ∉ g2.1.map Prod.fst) := by
  intro l
  induction l with
  | nil => intro processed _; simp [simGroups]
  | cons ic rest ih =>
    intro processed hnd
    rcases ic with ⟨i, c1⟩
    rw [List.map_cons] at hnd
    have hi_not : i ∉ rest.map Prod.fst := (List.nodup_cons.mp hnd).1
    have hnd' : (rest.map Prod.fst).Nodup := (List.nodup_cons.mp hnd).2
    by_cases hi : i ∈ processed
    · rw [show simGroups ((i, c1) :: rest) processed =
          simGroups rest processed from by simp [simGroups, hi]]
      exact ih processed hnd'
    · have hdisj : ∀ p' : List ℕ,
          (∀ j' ∈ (gatherSimilar c1 rest processed).2, j' ∈ p') →
          ∀ gb ∈ simGroups rest p',
            ∀ j ∈ ((i, c1) :: (gatherSimilar c1 rest processed).1).map Prod.fst,
              j ∉ gb.1.map Prod.fst := by
        intro p' hsub gb hgb j hj hjg
        obtain ⟨x, hxg, hxj⟩ := List.mem_map.mp hjg
        have hx := simGroups_mem rest p' gb hgb x hxg
        obtain ⟨y, hy, hyj⟩ := List.mem_map.mp hj
        rcases List.mem_cons.mp hy with rfl | hyg
        · exact hi_not (List.mem_map.mpr ⟨x, hx.1, hxj.trans hyj.symm⟩)
        · apply hx.2
          rw [hxj, ← hyj]
          exact hsub _ ((gatherSimilar_proc c1 rest processed).2 y hyg)
      by_cases hrep : similarityReported
          ((i, c1) :: (gatherSimilar c1 rest processed).1)
      · rw [show simGroups ((i, c1) :: rest) processed =
            ((i, c1) :: (gatherSimilar c1 rest processed).1, true) ::
              simGroups rest (i :: (gatherSimilar c1 rest processed).2) from by
          simp [simGroups, hi, hrep]]
        exact List.pairwise_cons.mpr
          ⟨hdisj _ (fun j' hj' => List.mem_cons_of_mem _ hj'), ih _ hnd'⟩
      · rw [show simGroups ((i, c1) :: rest) processed =
            ((i, c1) :: (gatherSimilar c1 rest processed).1, false) ::
              simGroups rest (gatherSimilar c1 rest processed).2 from by
          simp [simGroups, hi, hrep]]
        exact List.pairwise_cons.mpr
          ⟨hdisj _ (fun j' hj' => hj'), ih _ hnd'⟩

/-- C9: in one run of content-similarity detection every batch item belongs
to at most one reported cluster — the reported clusters' member-index lists
are pairwise disjoint — and the invariant holds for all formed groups
(reported or below threshold alike), since an absorbed item is marked
processed even when its seed's group is never reported. -/
theorem C9_similarity_clusters_disjoint (contents : List CampaignContent) :
    ((detect_content_similarity contents).Pairwise
      (fun cl1 cl2 => ∀ j ∈ cl1.member_indices, j ∉ cl2.member_indices)) ∧
    ((simGroups contents.enum []).Pairwise
      (fun g1 g2 => ∀ j ∈ g1.1.map Prod.fst, j ∉ g2.1.map Prod.fst)) := by
  have hall := simGroups_pairwise contents.enum []
    (by rw [List.enum_map_fst]; exact List.nodup_range _)
  refine ⟨?_, hall⟩
  unfold detect_content_similarity
  rw [List.pairwise_map]
  exact hall.filter (fun gb => gb.2)

/-- Sample variance is non-negative once a mean and a positive `n - 1`
denominator exist. -/
lemma sampleVar_nonneg (xs : List ℚ) (h : 2 ≤ xs.length) :
    0 ≤ sampleVar xs := by
  unfold sampleVar
  apply div_nonneg
  · apply List.sum_nonneg
    intro x hx
    obtain ⟨y, _, rfl⟩ := List.mem_map.mp hx
    positivity
  · have h2 : (2:ℚ) ≤ (xs.length : ℚ) := by exact_mod_cast h
    linarith

/-- The squared-z encoding agrees with the real z-score condition of the
source: `z² > 4` iff `|z| > 2`, where `z = d / std`, `std = √v`, and a zero
`std` is replaced by `1`. -/
lemma zsq_gt_iff (d v : ℚ) (hv : 0 ≤ v) :
    4 < zsq d v ↔
      2 < |((d : ℝ)) /
        (if Real.sqrt ((v : ℚ) : ℝ) = 0 then 1
         else Real.sqrt ((v : ℚ) : ℝ))| := by
  have key : ∀ a : ℚ, 4 < a ^ 2 ↔ 2 < |(a : ℝ)| := by
    intro a
    rw [← Rat.cast_abs, show (4:ℚ) = 2^2 from by norm_num, ← sq_abs a,
      pow_lt_pow_iff_left₀ (by norm_num) (abs_nonneg a) (by norm_num)]
    exact ⟨fun h => by exact_mod_cast h, fun h => by exact_mod_cast h⟩
  rcases hv.eq_or_lt with hv0 | hpos
  · rw [← hv0]
    simp only [zsq, Rat.cast_zero, Real.sqrt_zero, if_pos rfl, if_true,
      ite_true, eq_self_iff_true, div_one]
    exact key d
  · have hvR : (0:ℝ) < ((v : ℚ) : ℝ) := by exact_mod_cast hpos
    have hs : (0:ℝ) < Real.sqrt ((v : ℚ) : ℝ) := Real.sqrt_pos.mpr hvR
    rw [if_neg hs.ne', abs_div, abs_of_nonneg (Real.sqrt_nonneg _),
      lt_div_iff hs,
      show zsq d v = d^2 / v from by simp [zsq, hpos.ne'],
      lt_div_iff hpos]
    constructor
    · intro h
      have h1 : (2 * Real.sqrt ((v : ℚ) : ℝ))^2 < |(d : ℝ)|^2 := by
        rw [mul_pow, Real.sq_sqrt hvR.le, sq_abs]
        have hR : ((4 * v : ℚ) : ℝ) < ((d^2 : ℚ) : ℝ) := by exact_mod_cast h
        push_cast at hR
        nlinarith [hR]
      have h2 := sq_lt_sq.mp h1
      rwa [abs_of_nonneg (by positivity), abs_abs] at h2
    · intro h
      have h1 : (2 * Real.sqrt ((v : ℚ) : ℝ))^2 < |(d : ℝ)|^2 := by
        apply sq_lt_sq'
        · nlinarith [abs_nonneg (d : ℝ), Real.sqrt_nonneg ((v : ℚ) : ℝ)]
        · exact h
      rw [mul_pow, Real.sq_sqrt hvR.le, sq_abs] at h1
      have hR : ((4 * v : ℚ) : ℝ) < ((d^2 : ℚ) : ℝ) := by push_cast; nlinarith [h1]
      exact_mod_cast hR

/-- C5: a recent bucket is reported iff its key has at least 12 baseline
hourly observations and `|z| > 2.0`, with `z = (observed − mean)/std` and a
zero standard deviation treated as `1`; in particular a key with fewer than
12 baseline observations is never flagged, whatever its spike. -/
theorem C5_anomaly_gate (baseline : List TrendRow) (recent : List RecentRow)
    (r : RecentRow) :
    r ∈ detect_trending_anomalies baseline recent ↔
      (r ∈ recent ∧
        12 ≤ (baselineCounts baseline r.keyword_or_hashtag r.platform).length ∧
        2 < |((r.mention_count -
              listMean (baselineCounts baseline r.keyword_or_hashtag
                r.platform) : ℚ) : ℝ) /
            (if Real.sqrt ((sampleVar (baselineCounts baseline
                  r.keyword_or_hashtag r.platform) : ℚ) : ℝ) = 0
             then 1
             else Real.sqrt ((sampleVar (baselineCounts baseline
                  r.keyword_or_hashtag r.platform) : ℚ) : ℝ))|) := by
  unfold detect_trending_anomalies
  rw [(sortDescBy_perm _ _).mem_iff, List.mem_filter, List.mem_filter]
  constructor
  · rintro ⟨⟨hrec, hn⟩, hz⟩
    have hn' : 12 ≤ (baselineCounts baseline r.keyword_or_hashtag
        r.platform).length := by simpa using hn
    refine ⟨hrec, hn', ?_⟩
    have hv : 0 ≤ sampleVar (baselineCounts baseline r.keyword_or_hashtag
        r.platform) := sampleVar_nonneg _ (le_trans (by norm_num) hn')
    exact (zsq_gt_iff _ _ hv).mp (by simpa [rowZsq] using hz)
  · rintro ⟨hrec, hn, hz⟩
    have hv : 0 ≤ sampleVar (baselineCounts baseline r.keyword_or_hashtag
        r.platform) := sampleVar_nonneg _ (le_trans (by norm_num) hn)
    exact ⟨⟨hrec, by simpa using hn⟩,
      by simpa [rowZsq] using (zsq_gt_iff _ _ hv).mpr hz⟩

end AIC
